import Mathlib

/-!
Shallow embedding of `src/repos.py` (the fleet-of-repositories batch manager).

External collaborators (the git capability, the filesystem) are modelled as
oracles passed explicitly; every operation of `ProjectRepos` is translated as a
pure Lean function that returns its per-member outcomes together with the list
of externally visible mutation effects it performs, so that "no mutation" and
"never raises" are statable.  Python exceptions of the external capability are
values of `Except String _`; a Python exception that escapes a method is an
`Except.error` result of the embedded function.
-/

/-- Module constant `USER` (repos.py line 25). -/
def USER : String := "rw244-2025"

/-- Module constant `CLONE_DIR` (repos.py line 27): `Path("repos")`, modelled
as the path string. -/
def CLONE_DIR : String := "repos"

/-- `TEMPLATE_REPO_URL.format(...)` (repos.py lines 26, 130, 136-138):
`"{user}@gitolite.cs.sun.ac.za:{su_number}/{project_name}"`. -/
def TEMPLATE_REPO_URL (user su_number project_name : String) : String :=
  user ++ "@gitolite.cs.sun.ac.za:" ++ su_number ++ "/" ++ project_name

/-- A located working copy: the live `git.Repo` handle of the source, reduced
to its observable state.  `id` is `Path(repo.working_tree_dir).name`
(`repo_2_su`, repos.py lines 63-64) and `commit` is `repo.head.commit.hexsha`
(repos.py line 201). -/
structure RepoRecord where
  id : String
  commit : String
deriving DecidableEq, Repr

/-- `repo_2_su` (repos.py lines 63-64): the directory name of the working
tree, which the embedding carries directly as `RepoRecord.id`. -/
def repo_2_su (repo : RepoRecord) : String := repo.id

/-- The external version-control capability (the `git` package): results of
`Repo.clone_from`, `repo.git.pull`, `repo.git.checkout` per member.
`clone su` yields the head commit of the fresh working copy; `checkout su ref`
yields the head commit after the checkout; an `Except.error` is the Python
exception caught at each call site. -/
structure Git where
  clone : String → Except String String
  pull : String → Except String Unit
  checkout : String → String → Except String String
  restore : String → String → Except String Unit

/-- Externally visible mutations performed by an operation: network-backed git
commands and filesystem writes. -/
inductive Effect where
  | gitClone (url : String) (path : String)
  | gitPull (id : String)
  | gitCheckout (id : String) (ref : String)
  | gitRestore (id : String) (commit : String)
  | fsOpenWrite (file : String)
  | fsWriteLine (file : String) (line : String)
  | fsMkdir (path : String)
deriving DecidableEq, Repr

/-- Per-member outcome of a batch pass: the success / failure recorded at the
member boundary (repos.py lines 141-146, 166-171, 182-188), the dry-run
informational outcome (lines 128-132, 161-163, 177-179), or the warning-level
skip of the restore path (lines 225-227). -/
inductive Outcome where
  | success (id : String)
  | failure (id : String) (msg : String)
  | dryRunNote (id : String)
  | skippedMissing (id : String)
deriving DecidableEq, Repr

/-- The member a given outcome reports on. -/
def Outcome.memberId : Outcome → String
  | .success i => i
  | .failure i _ => i
  | .dryRunNote i => i
  | .skippedMissing i => i

/-- Log levels used by `logging.warning` / `logging.info` / `logging.error`. -/
inductive LogLevel where
  | info
  | warning
  | error
deriving DecidableEq, Repr

/-- One entry seen by `self.repo_dir.iterdir()` (repos.py line 103): its name,
whether it is a directory, whether `name/.git` exists, and the head commit of
the working copy a `Repo(...)` handle on it would report. -/
structure DirEntry where
  name : String
  isDir : Bool
  hasGitMarker : Bool
  headCommit : String
deriving DecidableEq, Repr

/-- The state of a `ProjectRepos` instance (repos.py lines 68-80).  Python's
`set` iterates in an arbitrary but fixed order; sets are embedded as lists in
that iteration order. -/
structure ProjectRepos where
  su_numbers : List String
  project_name : String
  dry_run : Bool
  repos : List RepoRecord
deriving DecidableEq, Repr

/-- Ids of the located working copies: `set(repo_2_su(repo) for repo in
self.repos)` (repos.py line 125). -/
def ProjectRepos.repoIds (p : ProjectRepos) : List String :=
  p.repos.map repo_2_su

/-- The clone working set (repos.py line 125):
`self.su_numbers - set(repo_2_su(repo) for repo in self.repos)`. -/
def ProjectRepos.missingSet (p : ProjectRepos) : List String :=
  p.su_numbers.filter (fun su => ! p.repoIds.contains su)

/-- The body of `locate` (repos.py lines 101-105): the set comprehension over
`self.repo_dir.iterdir()`, keeping entries that are directories containing a
`.git` marker and turning each into a live handle. -/
def locateScan (entries : List DirEntry) : List RepoRecord :=
  (entries.filter (fun e => e.isDir && e.hasGitMarker)).map
    (fun e => { id := e.name, commit := e.headCommit })

/-- The log line emitted at the end of `locate` (repos.py lines 107-112):
a warning when no repositories were found, an info line otherwise. -/
def locateLog (repos : List RepoRecord) : LogLevel :=
  if repos.length = 0 then LogLevel.warning else LogLevel.info

/-- The filesystem as seen by `__init__` / `locate`: whether a directory
exists, and its entries when it does. -/
structure FS where
  dirExists : String → Bool
  entries : String → List DirEntry

/-- `self.repo_dir = CLONE_DIR / project_name` (repos.py line 73). -/
def repoDirOf (project_name : String) : String :=
  CLONE_DIR ++ "/" ++ project_name

/-- `ProjectRepos.__init__` (repos.py lines 68-80).  Line 79 runs
`self.locate()` before line 80 creates `self.repo_dir`; `Path.iterdir()` on a
nonexistent directory raises `FileNotFoundError`, which nothing catches, so
construction fails with no effect performed (in particular the `mkdir` of line
80 is never reached). -/
def ProjectRepos.init (fs : FS) (su_numbers : List String)
    (project_name : String) (dry_run : Bool) :
    Except String ProjectRepos × List Effect :=
  let repo_dir := repoDirOf project_name
  if fs.dirExists repo_dir then
    (Except.ok
      { su_numbers := su_numbers
        project_name := project_name
        dry_run := dry_run
        repos := locateScan (fs.entries repo_dir) },
     [Effect.fsMkdir repo_dir])
  else
    (Except.error "FileNotFoundError", [])

/-- The loop body of `clone` (repos.py lines 127-146): iterates the working
set; in dry-run it only logs (line 128-132); otherwise it calls
`Repo.clone_from` and on success adds the new handle to `self.repos`
(line 141), while an exception is caught at the member boundary (lines
142-146) and the loop continues. -/
def cloneLoop (g : Git) (dry : Bool) (project_name : String) :
    List String → List RepoRecord →
    List RepoRecord × List Outcome × List Effect
  | [], repos => (repos, [], [])
  | su :: rest, repos =>
    if dry then
      let r := cloneLoop g dry project_name rest repos
      (r.1, Outcome.dryRunNote su :: r.2.1, r.2.2)
    else
      match g.clone su with
      | Except.ok sha =>
        let r := cloneLoop g dry project_name rest
          (repos ++ [{ id := su, commit := sha }])
        (r.1, Outcome.success su :: r.2.1,
         Effect.gitClone (TEMPLATE_REPO_URL USER su project_name)
           (repoDirOf project_name ++ "/" ++ su) :: r.2.2)
      | Except.error e =>
        let r := cloneLoop g dry project_name rest repos
        (r.1, Outcome.failure su e :: r.2.1,
         Effect.gitClone (TEMPLATE_REPO_URL USER su project_name)
           (repoDirOf project_name ++ "/" ++ su) :: r.2.2)

/-- `ProjectRepos.clone` (repos.py lines 114-146): computes the working set
`su_numbers - repoIds` and runs the clone loop over it, returning the updated
instance (its `repos` grew by the successful clones), the per-member outcomes
and the performed effects. -/
def ProjectRepos.clone (p : ProjectRepos) (g : Git) :
    ProjectRepos × List Outcome × List Effect :=
  let r := cloneLoop g p.dry_run p.project_name p.missingSet p.repos
  ({ p with repos := r.1 }, r.2.1, r.2.2)

/-- The loop of `pull` (repos.py lines 160-171): per repo, dry-run logs,
otherwise `repo.git.pull()` with the exception caught at the member
boundary. -/
def pullLoop (g : Git) (dry : Bool) :
    List RepoRecord → List Outcome × List Effect
  | [] => ([], [])
  | repo :: rest =>
    if dry then
      let r := pullLoop g dry rest
      (Outcome.dryRunNote (repo_2_su repo) :: r.1, r.2)
    else
      match g.pull (repo_2_su repo) with
      | Except.ok _ =>
        let r := pullLoop g dry rest
        (Outcome.success (repo_2_su repo) :: r.1,
         Effect.gitPull (repo_2_su repo) :: r.2)
      | Except.error e =>
        let r := pullLoop g dry rest
        (Outcome.failure (repo_2_su repo) e :: r.1,
         Effect.gitPull (repo_2_su repo) :: r.2)

/-- `ProjectRepos.pull` (repos.py lines 148-171). -/
def ProjectRepos.pull (p : ProjectRepos) (g : Git) :
    List Outcome × List Effect :=
  pullLoop g p.dry_run p.repos

/-- One exported line body (repos.py line 201):
`f"{repo_2_su(repo)},{repo.head.commit.hexsha}\n"` without its terminating
newline. -/
def exportLine (repo : RepoRecord) : String :=
  repo_2_su repo ++ "," ++ repo.commit

/-- The per-record line bodies `_export` writes, in iteration order. -/
def exportLines (repos : List RepoRecord) : List String :=
  repos.map exportLine

/-- The full file content `_export` produces: the loop of repos.py lines
200-201 appends each record's line followed by `"\n"` to the file. -/
def exportContent : List RepoRecord → String
  | [] => ""
  | repo :: rest => exportLine repo ++ "\n" ++ exportContent rest

/-- `ProjectRepos._export` (repos.py lines 195-201): opens `out_file` for
writing (creating or truncating it) and writes one line per record.  Returns
the written content and the effects performed. -/
def ProjectRepos._export (repos : List RepoRecord) (out_file : String) :
    String × List Effect :=
  (exportContent repos,
   Effect.fsOpenWrite out_file ::
     repos.map (fun repo => Effect.fsWriteLine out_file (exportLine repo)))

/-- `ProjectRepos.export_commits` (repos.py lines 203-210):
`self._export(self.repos, out_file)`. -/
def ProjectRepos.export_commits (p : ProjectRepos) (out_file : String) :
    String × List Effect :=
  ProjectRepos._export p.repos out_file

/-- The result of a `switch` pass (repos.py lines 173-193): the success
subset, the per-member outcomes, the summary triple
`len(successes)/len(self.repos)/len(self.su_numbers)` of the log line (line
190-192), the content written to `switched_repos.csv` (line 193), and all
effects. -/
structure SwitchResult where
  successes : List RepoRecord
  outcomes : List Outcome
  summary : Nat × Nat × Nat
  exported : String
  effects : List Effect
deriving DecidableEq, Repr

/-- The loop of `switch` (repos.py lines 176-188): per repo, dry-run logs;
otherwise `repo.git.checkout(branch_like)` and on success the repo (whose head
now points at the checked-out revision) joins `successes`; the exception is
caught at the member boundary. -/
def switchLoop (g : Git) (dry : Bool) (branch_like : String) :
    List RepoRecord → List RepoRecord × List Outcome × List Effect
  | [] => ([], [], [])
  | repo :: rest =>
    if dry then
      let r := switchLoop g dry branch_like rest
      (r.1, Outcome.dryRunNote (repo_2_su repo) :: r.2.1, r.2.2)
    else
      match g.checkout (repo_2_su repo) branch_like with
      | Except.ok sha =>
        let r := switchLoop g dry branch_like rest
        ({ repo with commit := sha } :: r.1,
         Outcome.success (repo_2_su repo) :: r.2.1,
         Effect.gitCheckout (repo_2_su repo) branch_like :: r.2.2)
      | Except.error e =>
        let r := switchLoop g dry branch_like rest
        (r.1, Outcome.failure (repo_2_su repo) e :: r.2.1,
         Effect.gitCheckout (repo_2_su repo) branch_like :: r.2.2)

/-- `ProjectRepos.switch` (repos.py lines 173-193): runs the loop over
`self.repos`, logs the summary fraction, then unconditionally
`self._export(successes, "switched_repos.csv")`. -/
def ProjectRepos.switch (p : ProjectRepos) (g : Git) (branch_like : String) :
    SwitchResult :=
  let r := switchLoop g p.dry_run branch_like p.repos
  let e := ProjectRepos._export r.1 "switched_repos.csv"
  { successes := r.1
    outcomes := r.2.1
    summary := (r.1.length, p.repos.length, p.su_numbers.length)
    exported := e.1
    effects := r.2.2 ++ e.2 }

/-- The whitespace characters Python's `str.strip()` removes. -/
def isPyWhitespace (c : Char) : Bool :=
  c = ' ' || c = '\t' || c = '\n' || c = '\r' || c = '\x0b' || c = '\x0c'

/-- `line.strip()` on the character list: whitespace removed from both
ends. -/
def stripChars (l : List Char) : List Char :=
  ((l.dropWhile isPyWhitespace).reverse.dropWhile isPyWhitespace).reverse

/-- Python's `split(",")` on the character list: `[] ↦ [""]`, every comma
starts a new part. -/
def splitOnComma : List Char → List (List Char)
  | [] => [[]]
  | c :: rest =>
    if c = ',' then
      [] :: splitOnComma rest
    else
      match splitOnComma rest with
      | [] => [[c]]
      | h :: t => (c :: h) :: t

/-- `line.strip().split(",")` followed by the two-name unpacking of repos.py
line 223: yields the pair when the stripped line has exactly one comma, and
`none` where Python raises `ValueError`. -/
def parseSnapshotLine (line : String) : Option (String × String) :=
  match splitOnComma (stripChars line.data) with
  | [su_number, commit_hash] => some (String.mk su_number, String.mk commit_hash)
  | _ => none

/-- Parses a run of snapshot lines in order; a line Python's unpacking would
reject (repos.py line 223) makes the whole read raise, hence `none`. -/
def parseLines : List String → Option (List (String × String))
  | [] => some []
  | l :: rest =>
    match parseSnapshotLine l, parseLines rest with
    | some record, some records => some (record :: records)
    | _, _ => none

/-- The per-line snapshot records the restore path reads after skipping the
header: `importRecords` models repos.py lines 220-223 applied to a file whose
line bodies are `fileLines` (`f.readline()` consumes the first line,
`f.readlines()` yields the rest). -/
def importRecords (fileLines : List String) :
    Option (List (String × String)) :=
  parseLines fileLines.tail

/-- Result of `checkout_commits` (repos.py lines 212-243): the set `checked`
of successfully restored members, the per-line outcomes, and the drift pair
logged at lines 239-243. -/
structure RestoreResult where
  checked : List String
  outcomes : List Outcome
  missing_students : List String
  extra_students : List String
  effects : List Effect
deriving DecidableEq, Repr

/-- The loop of `checkout_commits` (repos.py lines 222-237): per remaining
line, parse it (an unparsable line raises `ValueError` past the method
boundary, hence `Except.error`); a member whose working-copy path is absent is
a warning-level skip (lines 225-227); otherwise `Repo(repo).git.checkout`
runs with its exception caught at the member boundary (lines 229-237). -/
def checkoutLoop (g : Git) (pathExists : String → Bool) :
    List String → Except String (List String × List Outcome × List Effect)
  | [] => Except.ok ([], [], [])
  | line :: rest =>
    match parseSnapshotLine line with
    | none => Except.error ("ValueError: " ++ line)
    | some (su_number, commit_hash) =>
      if pathExists su_number then
        match g.restore su_number commit_hash with
        | Except.ok _ =>
          match checkoutLoop g pathExists rest with
          | Except.error e => Except.error e
          | Except.ok r =>
            Except.ok (su_number :: r.1,
              Outcome.success su_number :: r.2.1,
              Effect.gitRestore su_number commit_hash :: r.2.2)
        | Except.error e =>
          match checkoutLoop g pathExists rest with
          | Except.error e' => Except.error e'
          | Except.ok r =>
            Except.ok (r.1, Outcome.failure su_number e :: r.2.1,
              Effect.gitRestore su_number commit_hash :: r.2.2)
      else
        match checkoutLoop g pathExists rest with
        | Except.error e => Except.error e
        | Except.ok r =>
          Except.ok (r.1, Outcome.skippedMissing su_number :: r.2.1, r.2.2)

/-- `ProjectRepos.checkout_commits` (repos.py lines 212-243): skips the first
line of the file unconditionally (line 221), runs the restore loop over the
remaining line bodies, then computes `missing_students = su_numbers - checked`
and `extra_students = checked - su_numbers` (lines 239-240).  The name
`su_numbers` on lines 239-240 resolves to the module-global roster set, which
equals `self.su_numbers` in every run of the script (line 313). -/
def ProjectRepos.checkout_commits (p : ProjectRepos) (g : Git)
    (pathExists : String → Bool) (fileLines : List String) :
    Except String RestoreResult :=
  match checkoutLoop g pathExists fileLines.tail with
  | Except.error e => Except.error e
  | Except.ok r =>
    Except.ok
      { checked := r.1
        outcomes := r.2.1
        missing_students := p.su_numbers.filter (fun s => ! r.1.contains s)
        extra_students := r.1.filter (fun s => ! p.su_numbers.contains s)
        effects := r.2.2 }

/-! ### Concrete stand-ins for the external capability, for evaluation -/

/-- A capability whose every operation succeeds. -/
def gAllOk : Git where
  clone := fun _ => Except.ok "sha1"
  pull := fun _ => Except.ok ()
  checkout := fun _ _ => Except.ok "shaM"
  restore := fun _ _ => Except.ok ()

/-- A capability whose every operation fails deterministically. -/
def gAllFail : Git where
  clone := fun su => Except.error ("clone failed for " ++ su)
  pull := fun su => Except.error ("pull failed for " ++ su)
  checkout := fun su _ => Except.error ("checkout failed for " ++ su)
  restore := fun su _ => Except.error ("restore failed for " ++ su)

/-- A capability that fails exactly on member `"002"`. -/
def gFailOn002 : Git where
  clone := fun su =>
    if su = "002" then Except.error "host unreachable" else Except.ok "sha1"
  pull := fun su =>
    if su = "002" then Except.error "merge conflict" else Except.ok ()
  checkout := fun su _ =>
    if su = "002" then Except.error "unknown ref" else Except.ok "shaM"
  restore := fun su _ =>
    if su = "002" then Except.error "unknown revision" else Except.ok ()

/-- A two-member roster with one repository already present, not in dry-run
mode. -/
def pFleet : ProjectRepos where
  su_numbers := ["001", "002"]
  project_name := "proj"
  dry_run := false
  repos := [{ id := "001", commit := "c1" }]

/-- A three-member roster with two repositories present, not in dry-run
mode. -/
def pTwoRepos : ProjectRepos where
  su_numbers := ["001", "002", "003"]
  project_name := "proj"
  dry_run := false
  repos := [{ id := "001", commit := "c1" }, { id := "002", commit := "c2" }]

/-- The same fleet with the dry-run flag set. -/
def pDryFleet : ProjectRepos where
  su_numbers := ["001", "002"]
  project_name := "proj"
  dry_run := true
  repos := [{ id := "001", commit := "c1" }]

/-! ### Basic lemmas about the reconciliation sets and the batch loops -/

lemma mem_repoIds (p : ProjectRepos) (a : String) :
    a ∈ p.repoIds ↔ ∃ repo ∈ p.repos, repo_2_su repo = a := by
  simp [ProjectRepos.repoIds]

lemma mem_missingSet (p : ProjectRepos) (a : String) :
    a ∈ p.missingSet ↔ a ∈ p.su_numbers ∧ ¬ a ∈ p.repoIds := by
  simp [ProjectRepos.missingSet, List.mem_filter, List.elem_iff]

lemma cloneLoop_dry (g : Git) (pn : String) (ws : List String)
    (repos : List RepoRecord) :
    cloneLoop g true pn ws repos = (repos, ws.map Outcome.dryRunNote, []) := by
  induction ws generalizing repos with
  | nil => simp [cloneLoop]
  | cons su rest ih => simp [cloneLoop, ih]

lemma cloneLoop_outcome_ids (g : Git) (dry : Bool) (pn : String)
    (ws : List String) (repos : List RepoRecord) :
    ((cloneLoop g dry pn ws repos).2.1).map Outcome.memberId = ws := by
  induction ws generalizing repos with
  | nil => simp [cloneLoop]
  | cons su rest ih =>
    cases dry with
    | true => simp [cloneLoop, Outcome.memberId, ih]
    | false =>
      cases hc : g.clone su with
      | ok sha => simp [cloneLoop, hc, Outcome.memberId, ih]
      | error e => simp [cloneLoop, hc, Outcome.memberId, ih]

lemma cloneLoop_mem_ids (g : Git) (pn : String) (ws : List String)
    (repos : List RepoRecord) (a : String) :
    a ∈ ((cloneLoop g false pn ws repos).1).map repo_2_su ↔
      a ∈ repos.map repo_2_su ∨
        (a ∈ ws ∧ ∃ sha, g.clone a = Except.ok sha) := by
  induction ws generalizing repos with
  | nil => simp [cloneLoop]
  | cons su rest ih =>
    cases hc : g.clone su with
    | ok sha =>
      rw [show cloneLoop g false pn (su :: rest) repos =
        (let r := cloneLoop g false pn rest
          (repos ++ [{ id := su, commit := sha }])
         (r.1, Outcome.success su :: r.2.1,
          Effect.gitClone (TEMPLATE_REPO_URL USER su pn)
            (repoDirOf pn ++ "/" ++ su) :: r.2.2)) from by
        simp [cloneLoop, hc]]
      simp only [ih, List.map_append, List.mem_append, List.map_cons,
        List.map_nil, List.mem_singleton, List.mem_cons, List.not_mem_nil,
        or_false, repo_2_su]
      constructor
      · rintro ((h | h) | ⟨h, hE⟩)
        · exact Or.inl h
        · exact Or.inr ⟨Or.inl h, h ▸ ⟨sha, hc⟩⟩
        · exact Or.inr ⟨Or.inr h, hE⟩
      · rintro (h | ⟨h | h, hE⟩)
        · exact Or.inl (Or.inl h)
        · exact Or.inl (Or.inr h)
        · exact Or.inr ⟨h, hE⟩
    | error e =>
      rw [show cloneLoop g false pn (su :: rest) repos =
        (let r := cloneLoop g false pn rest repos
         (r.1, Outcome.failure su e :: r.2.1,
          Effect.gitClone (TEMPLATE_REPO_URL USER su pn)
            (repoDirOf pn ++ "/" ++ su) :: r.2.2)) from by
        simp [cloneLoop, hc]]
      simp only [ih, List.mem_cons]
      constructor
      · rintro (h | ⟨h, hE⟩)
        · exact Or.inl h
        · exact Or.inr ⟨Or.inr h, hE⟩
      · rintro (h | ⟨h | h, hE⟩)
        · exact Or.inl h
        · rcases hE with ⟨s, hs⟩
          rw [h, hc] at hs
          cases hs
        · exact Or.inr ⟨h, hE⟩

lemma cloneLoop_success_clone_ok (g : Git) (pn : String) (ws : List String)
    (repos : List RepoRecord) (su : String)
    (h : Outcome.success su ∈ (cloneLoop g false pn ws repos).2.1) :
    su ∈ ws ∧ ∃ sha, g.clone su = Except.ok sha := by
  induction ws generalizing repos with
  | nil => simp [cloneLoop] at h
  | cons su' rest ih =>
    cases hc : g.clone su' with
    | ok sha =>
      simp only [cloneLoop, hc, Bool.false_eq_true, if_false,
        List.mem_cons] at h
      rcases h with h | h
      · have hsu : su = su' := by
          cases h
          rfl
        subst hsu
        exact ⟨List.mem_cons_self _ _, ⟨sha, hc⟩⟩
      · have := ih _ h
        exact ⟨List.mem_cons_of_mem _ this.1, this.2⟩
    | error e =>
      simp only [cloneLoop, hc, Bool.false_eq_true, if_false,
        List.mem_cons] at h
      rcases h with h | h
      · cases h
      · have := ih _ h
        exact ⟨List.mem_cons_of_mem _ this.1, this.2⟩

lemma cloneLoop_all_error (g : Git) (pn : String) (ws : List String)
    (repos : List RepoRecord)
    (h : ∀ su ∈ ws, ∃ e, g.clone su = Except.error e) :
    (cloneLoop g false pn ws repos).1 = repos := by
  induction ws generalizing repos with
  | nil => simp [cloneLoop]
  | cons su rest ih =>
    rcases h su (List.mem_cons_self _ _) with ⟨e, he⟩
    simp only [cloneLoop, he, Bool.false_eq_true, if_false]
    exact ih _ (fun s hs => h s (List.mem_cons_of_mem _ hs))

lemma pullLoop_dry (g : Git) (rs : List RepoRecord) :
    pullLoop g true rs =
      (rs.map (fun repo => Outcome.dryRunNote (repo_2_su repo)), []) := by
  induction rs with
  | nil => simp [pullLoop]
  | cons repo rest ih => simp [pullLoop, ih]

lemma pullLoop_outcome_ids (g : Git) (dry : Bool) (rs : List RepoRecord) :
    ((pullLoop g dry rs).1).map Outcome.memberId = rs.map repo_2_su := by
  induction rs with
  | nil => simp [pullLoop]
  | cons repo rest ih =>
    cases dry with
    | true => simp [pullLoop, Outcome.memberId, ih]
    | false =>
      cases hc : g.pull (repo_2_su repo) with
      | ok u => simp [pullLoop, hc, Outcome.memberId, ih]
      | error e => simp [pullLoop, hc, Outcome.memberId, ih]

lemma switchLoop_dry (g : Git) (branch_like : String) (rs : List RepoRecord) :
    switchLoop g true branch_like rs =
      ([], rs.map (fun repo => Outcome.dryRunNote (repo_2_su repo)), []) := by
  induction rs with
  | nil => simp [switchLoop]
  | cons repo rest ih => simp [switchLoop, ih]

lemma switchLoop_outcome_ids (g : Git) (dry : Bool) (branch_like : String)
    (rs : List RepoRecord) :
    ((switchLoop g dry branch_like rs).2.1).map Outcome.memberId =
      rs.map repo_2_su := by
  induction rs with
  | nil => simp [switchLoop]
  | cons repo rest ih =>
    cases dry with
    | true => simp [switchLoop, Outcome.memberId, ih]
    | false =>
      cases hc : g.checkout (repo_2_su repo) branch_like with
      | ok sha => simp [switchLoop, hc, Outcome.memberId, ih]
      | error e => simp [switchLoop, hc, Outcome.memberId, ih]

lemma switchLoop_mem_successes (g : Git) (branch_like : String)
    (rs : List RepoRecord) (rec : RepoRecord) :
    rec ∈ (switchLoop g false branch_like rs).1 ↔
      ∃ repo ∈ rs, ∃ sha,
        g.checkout (repo_2_su repo) branch_like = Except.ok sha ∧
        rec = { repo with commit := sha } := by
  induction rs with
  | nil => simp [switchLoop]
  | cons repo rest ih =>
    cases hc : g.checkout (repo_2_su repo) branch_like with
    | ok sha =>
      simp only [switchLoop, hc, Bool.false_eq_true, if_false,
        List.mem_cons, ih]
      constructor
      · rintro (h | ⟨repo', hmem, sha', hok, hrec⟩)
        · exact ⟨repo, Or.inl rfl, sha, hc, h⟩
        · exact ⟨repo', Or.inr hmem, sha', hok, hrec⟩
      · rintro ⟨repo', h | hmem, sha', hok, hrec⟩
        · subst h
          rw [hc] at hok
          cases hok
          exact Or.inl hrec
        · exact Or.inr ⟨repo', hmem, sha', hok, hrec⟩
    | error e =>
      simp only [switchLoop, hc, Bool.false_eq_true, if_false,
        List.mem_cons, ih]
      constructor
      · rintro ⟨repo', hmem, sha', hok, hrec⟩
        exact ⟨repo', Or.inr hmem, sha', hok, hrec⟩
      · rintro ⟨repo', h | hmem, sha', hok, hrec⟩
        · subst h
          rw [hc] at hok
          cases hok
        · exact ⟨repo', hmem, sha', hok, hrec⟩

lemma checkoutLoop_ok_of_parses (g : Git) (pathExists : String → Bool)
    (ls : List String)
    (h : ∀ l ∈ ls, (parseSnapshotLine l).isSome = true) :
    ∃ r, checkoutLoop g pathExists ls = Except.ok r ∧
      r.2.1.length = ls.length ∧
      (∀ s, s ∈ r.1 ↔ ∃ l ∈ ls, ∃ c,
        parseSnapshotLine l = some (s, c) ∧ pathExists s = true ∧
        ∃ u, g.restore s c = Except.ok u) := by
  induction ls with
  | nil =>
    refine ⟨([], [], []), rfl, rfl, ?_⟩
    simp
  | cons l rest ih =>
    have hl := h l (List.mem_cons_self _ _)
    have hrest := ih (fun x hx => h x (List.mem_cons_of_mem _ hx))
    rcases hrest with ⟨r, hr, hlen, hmem⟩
    cases hp : parseSnapshotLine l with
    | none =>
      rw [hp] at hl
      simp at hl
    | some sc =>
      obtain ⟨su, c⟩ := sc
      cases hpe : pathExists su with
      | false =>
        refine ⟨(r.1, Outcome.skippedMissing su :: r.2.1, r.2.2), ?_, ?_, ?_⟩
        · simp [checkoutLoop, hp, hpe, hr]
        · simpa using congrArg Nat.succ hlen
        · intro s
          rw [hmem s]
          simp only [List.mem_cons]
          constructor
          · rintro ⟨l', hl', c', hpc, hpes, u, hres⟩
            exact ⟨l', Or.inr hl', c', hpc, hpes, u, hres⟩
          · rintro ⟨l', hml | hml, c', hpc, hpes, u, hres⟩
            · subst hml
              rw [hp] at hpc
              cases hpc
              rw [hpe] at hpes
              cases hpes
            · exact ⟨l', hml, c', hpc, hpes, u, hres⟩
      | true =>
        cases hres : g.restore su c with
        | ok u =>
          refine ⟨(su :: r.1, Outcome.success su :: r.2.1,
            Effect.gitRestore su c :: r.2.2), ?_, ?_, ?_⟩
          · simp [checkoutLoop, hp, hpe, hres, hr]
          · simpa using congrArg Nat.succ hlen
          · intro s
            simp only [List.mem_cons, hmem s]
            constructor
            · rintro (hs | ⟨l', hl', c', hpc, hpes, u', hres'⟩)
              · subst hs
                exact ⟨l, Or.inl rfl, c, hp, hpe, u, hres⟩
              · exact ⟨l', Or.inr hl', c', hpc, hpes, u', hres'⟩
            · rintro ⟨l', hml | hml, c', hpc, hpes, u', hres'⟩
              · subst hml
                rw [hp] at hpc
                cases hpc
                exact Or.inl rfl
              · exact Or.inr ⟨l', hml, c', hpc, hpes, u', hres'⟩
        | error e =>
          refine ⟨(r.1, Outcome.failure su e :: r.2.1,
            Effect.gitRestore su c :: r.2.2), ?_, ?_, ?_⟩
          · simp [checkoutLoop, hp, hpe, hres, hr]
          · simpa using congrArg Nat.succ hlen
          · intro s
            rw [hmem s]
            simp only [List.mem_cons]
            constructor
            · rintro ⟨l', hl', c', hpc, hpes, u, hres'⟩
              exact ⟨l', Or.inr hl', c', hpc, hpes, u, hres'⟩
            · rintro ⟨l', hml | hml, c', hpc, hpes, u, hres'⟩
              · subst hml
                rw [hp] at hpc
                cases hpc
                rw [hres] at hres'
                cases hres'
              · exact ⟨l', hml, c', hpc, hpes, u, hres'⟩

lemma parseLines_map_exportLine (rs : List RepoRecord)
    (h : ∀ r ∈ rs, parseSnapshotLine (exportLine r) = some (r.id, r.commit)) :
    parseLines (rs.map exportLine) =
      some (rs.map (fun r => (r.id, r.commit))) := by
  induction rs with
  | nil => rfl
  | cons r rest ih =>
    have hrest := ih (fun x hx => h x (List.mem_cons_of_mem _ hx))
    simp [parseLines, h r (List.mem_cons_self _ _), hrest]

lemma exportContent_cons (r : RepoRecord) (rest : List RepoRecord) :
    (exportContent (r :: rest)).data =
      (exportLine r).data ++ '\n' :: (exportContent rest).data := by
  have h1 : (exportContent (r :: rest)).data =
      ((exportLine r).data ++ ['\n']) ++ (exportContent rest).data := rfl
  rw [h1, List.append_assoc]
  rfl

lemma exportContent_newline_count (rs : List RepoRecord)
    (h : ∀ r ∈ rs, r.id.data.count '\n' = 0 ∧ r.commit.data.count '\n' = 0) :
    (exportContent rs).data.count '\n' = rs.length := by
  induction rs with
  | nil => simp [exportContent]
  | cons r rest ih =>
    have hr := h r (List.mem_cons_self _ _)
    have hrest := ih (fun x hx => h x (List.mem_cons_of_mem _ hx))
    have hline : (exportLine r).data =
        (r.id.data ++ [',']) ++ r.commit.data := rfl
    have hcomma : ([','] : List Char).count '\n' = 0 := by decide
    rw [exportContent_cons, List.count_append, hline, List.count_append,
      List.count_append, hr.1, hr.2, hcomma, List.count_cons, hrest]
    simp

/-! ### Claim theorems -/

/-- C1: for every working set and every operation (clone, pull, switch,
checkout-commits), a failure on one member does not prevent subsequent members
from being attempted — the batch completes a full pass over the working set,
never raises past its own boundary, and produces one outcome per member of the
working set (the outcome list, projected to member ids, is exactly the working
set).  For checkout-commits the working set is the list of snapshot records of
the imported file, i.e. every non-header line parses to an `id,commit`
pair. -/
theorem batch_isolates_member_failures
    (p : ProjectRepos) (g : Git) (branch_like : String)
    (pathExists : String → Bool) (fileLines : List String)
    (hparse : ∀ l ∈ fileLines.tail, (parseSnapshotLine l).isSome = true) :
    ((p.clone g).2.1).map Outcome.memberId = p.missingSet ∧
    ((p.pull g).1).map Outcome.memberId = p.repos.map repo_2_su ∧
    ((p.switch g branch_like).outcomes).map Outcome.memberId =
      p.repos.map repo_2_su ∧
    ∃ res, p.checkout_commits g pathExists fileLines = Except.ok res ∧
      res.outcomes.length = fileLines.tail.length := by
  refine ⟨?_, ?_, ?_, ?_⟩
  · simpa [ProjectRepos.clone] using
      cloneLoop_outcome_ids g p.dry_run p.project_name p.missingSet p.repos
  · simpa [ProjectRepos.pull] using pullLoop_outcome_ids g p.dry_run p.repos
  · simpa [ProjectRepos.switch] using
      switchLoop_outcome_ids g p.dry_run branch_like p.repos
  · rcases checkoutLoop_ok_of_parses g pathExists fileLines.tail hparse with
      ⟨r, hr, hlen, _⟩
    have hcc : p.checkout_commits g pathExists fileLines =
        Except.ok
          { checked := r.1
            outcomes := r.2.1
            missing_students := p.su_numbers.filter (fun s => ! r.1.contains s)
            extra_students := r.1.filter (fun s => ! p.su_numbers.contains s)
            effects := r.2.2 } := by
      simp only [ProjectRepos.checkout_commits, hr]
    exact ⟨_, hcc, by simpa using hlen⟩

/-- Witness for C1 at a concrete fleet, a capability failing exactly on
member "002", and a two-line restore file. -/
theorem batch_isolates_member_failures_witness :
    ((pFleet.clone gFailOn002).2.1).map Outcome.memberId = pFleet.missingSet ∧
    ((pFleet.pull gFailOn002).1).map Outcome.memberId =
      pFleet.repos.map repo_2_su ∧
    ((pFleet.switch gFailOn002 "main").outcomes).map Outcome.memberId =
      pFleet.repos.map repo_2_su ∧
    ∃ res, pFleet.checkout_commits gFailOn002 (fun _ => true)
        ["id,commit", "001,c9", "002,c8"] = Except.ok res ∧
      res.outcomes.length =
        (["id,commit", "001,c9", "002,c8"] : List String).tail.length :=
  batch_isolates_member_failures pFleet gFailOn002 "main" (fun _ => true)
    ["id,commit", "001,c9", "002,c8"] (by decide)

/-- C2: export followed by import on the resulting file discards exactly the
first written line unconditionally (it is treated as a header), so the
imported list holds the last n-1 exported records; in particular a single
exported record imports back as the empty list.  The hypothesis states that
every record's exported line parses back to the record, i.e. ids and commits
are free of commas and surrounding whitespace, as the `id,commit` file format
presumes. -/
theorem export_import_drops_first_record
    (records : List RepoRecord)
    (h : ∀ r ∈ records,
      parseSnapshotLine (exportLine r) = some (r.id, r.commit)) :
    importRecords (exportLines records) =
      some ((records.map (fun r => (r.id, r.commit))).tail) := by
  cases records with
  | nil => rfl
  | cons r rest =>
    show parseLines ((exportLines (r :: rest)).tail) = _
    have htail : (exportLines (r :: rest)).tail = rest.map exportLine := rfl
    rw [htail, List.map_cons, List.tail_cons]
    exact parseLines_map_exportLine rest
      (fun x hx => h x (List.mem_cons_of_mem _ hx))

/-- Witness for C2: exporting the single record `001,c1` and importing the
file back yields no records. -/
theorem export_import_drops_first_record_witness :
    importRecords (exportLines [{ id := "001", commit := "c1" }]) = some [] :=
  export_import_drops_first_record [{ id := "001", commit := "c1" }]
    (by decide)

/-- C5: the working set of the clone operation is exactly the roster minus
the identifiers of the located repositories, and exactly those members are
attempted (the pass reports one outcome per such member, in order). -/
theorem clone_working_set_is_roster_minus_present
    (p : ProjectRepos) (g : Git) :
    (∀ a, a ∈ p.missingSet ↔ a ∈ p.su_numbers ∧ ¬ a ∈ p.repoIds) ∧
    ((p.clone g).2.1).map Outcome.memberId = p.missingSet := by
  refine ⟨mem_missingSet p, ?_⟩
  simpa [ProjectRepos.clone] using
    cloneLoop_outcome_ids g p.dry_run p.project_name p.missingSet p.repos

/-- C9: the locator produces a record for an immediate subdirectory iff it is
a directory containing the version-control marker; non-qualifying entries are
skipped; an empty scan result is reported at warning level, never as an
error. -/
theorem locate_record_iff_dir_with_marker (entries : List DirEntry) :
    (∀ rec, rec ∈ locateScan entries ↔ ∃ e ∈ entries,
      e.isDir = true ∧ e.hasGitMarker = true ∧
      rec = { id := e.name, commit := e.headCommit }) ∧
    (locateLog (locateScan entries) = LogLevel.warning ↔
      locateScan entries = []) ∧
    locateLog (locateScan entries) ≠ LogLevel.error := by
  refine ⟨?_, ?_, ?_⟩
  · intro rec
    simp only [locateScan, List.mem_map, List.mem_filter, Bool.and_eq_true]
    constructor
    · rintro ⟨e, ⟨hmem, hd, hm⟩, hrec⟩
      exact ⟨e, hmem, hd, hm, hrec.symm⟩
    · rintro ⟨e, hmem, hd, hm, hrec⟩
      exact ⟨e, ⟨hmem, hd, hm⟩, hrec.symm⟩
  · rw [locateLog]
    split_ifs with hl
    · simp [List.length_eq_zero.mp hl]
    · simp only [List.length_eq_zero] at hl
      simp [hl]
  · rw [locateLog]
    split_ifs <;> simp

/-- C10: constructing the engine when the project directory does not yet
exist on disk fails with the locate scan's FileNotFoundError (the directory
is created only after the scan), before any subcommand — or even the
`mkdir` — runs. -/
theorem init_fails_when_project_dir_absent
    (fs : FS) (su_numbers : List String) (project_name : String)
    (dry_run : Bool)
    (h : fs.dirExists (repoDirOf project_name) = false) :
    (ProjectRepos.init fs su_numbers project_name dry_run).1 =
      Except.error "FileNotFoundError" ∧
    (ProjectRepos.init fs su_numbers project_name dry_run).2 = [] := by
  simp [ProjectRepos.init, h]

/-- Witness for C10 on a filesystem with no directories at all. -/
theorem init_fails_when_project_dir_absent_witness :
    (ProjectRepos.init ⟨fun _ => false, fun _ => []⟩ ["001"] "proj" false).1 =
      Except.error "FileNotFoundError" ∧
    (ProjectRepos.init ⟨fun _ => false, fun _ => []⟩ ["001"] "proj" false).2 =
      [] :=
  init_fails_when_project_dir_absent ⟨fun _ => false, fun _ => []⟩ ["001"]
    "proj" false rfl

/-- C3 counterexample: with the dry-run flag set, `switch` on a concrete
fleet still performs a filesystem mutation — it opens (creates or truncates)
`switched_repos.csv` — so its effect list is not empty, contradicting the
claim that switch performs no filesystem or network mutation under
dry-run. -/
theorem dry_run_switch_still_opens_export_file :
    pDryFleet.dry_run = true ∧
    (pDryFleet.switch gAllOk "main").effects =
      [Effect.fsOpenWrite "switched_repos.csv"] ∧
    (pDryFleet.switch gAllOk "main").effects ≠ ([] : List Effect) := by
  decide

/-- C3 amended: with dryRun set, clone and pull perform no filesystem or
network mutation and clone leaves the instance unchanged; switch performs no
repository mutation and writes no record line, but still opens (creating or
truncating) `switched_repos.csv`, because the final export runs
unconditionally; all three operations still iterate every member of their
working set and report on each. -/
theorem dry_run_pure_except_switch_export_file
    (p : ProjectRepos) (g : Git) (branch_like : String)
    (h : p.dry_run = true) :
    (p.clone g).2.2 = [] ∧
    (p.clone g).1 = p ∧
    ((p.clone g).2.1).map Outcome.memberId = p.missingSet ∧
    (p.pull g).2 = [] ∧
    ((p.pull g).1).map Outcome.memberId = p.repos.map repo_2_su ∧
    (p.switch g branch_like).effects =
      [Effect.fsOpenWrite "switched_repos.csv"] ∧
    (p.switch g branch_like).exported = "" ∧
    ((p.switch g branch_like).outcomes).map Outcome.memberId =
      p.repos.map repo_2_su := by
  refine ⟨?_, ?_, ?_, ?_, ?_, ?_, ?_, ?_⟩
  · simp [ProjectRepos.clone, h, cloneLoop_dry]
  · obtain ⟨a, b, c, d⟩ := p
    replace h : c = true := h
    subst h
    simp [ProjectRepos.clone, cloneLoop_dry]
  · simpa [ProjectRepos.clone] using
      cloneLoop_outcome_ids g p.dry_run p.project_name p.missingSet p.repos
  · simp [ProjectRepos.pull, h, pullLoop_dry]
  · simpa [ProjectRepos.pull] using pullLoop_outcome_ids g p.dry_run p.repos
  · simp [ProjectRepos.switch, h, switchLoop_dry, ProjectRepos._export]
  · simp [ProjectRepos.switch, h, switchLoop_dry, ProjectRepos._export,
      exportContent]
  · simpa [ProjectRepos.switch] using
      switchLoop_outcome_ids g p.dry_run branch_like p.repos

/-- Witness for the amended C3 on a concrete dry-run fleet with an
always-failing capability. -/
theorem dry_run_pure_except_switch_export_file_witness :
    (pDryFleet.clone gAllFail).2.2 = [] ∧
    (pDryFleet.clone gAllFail).1 = pDryFleet ∧
    ((pDryFleet.clone gAllFail).2.1).map Outcome.memberId =
      pDryFleet.missingSet ∧
    (pDryFleet.pull gAllFail).2 = [] ∧
    ((pDryFleet.pull gAllFail).1).map Outcome.memberId =
      pDryFleet.repos.map repo_2_su ∧
    (pDryFleet.switch gAllFail "main").effects =
      [Effect.fsOpenWrite "switched_repos.csv"] ∧
    (pDryFleet.switch gAllFail "main").exported = "" ∧
    ((pDryFleet.switch gAllFail "main").outcomes).map Outcome.memberId =
      pDryFleet.repos.map repo_2_su :=
  dry_run_pure_except_switch_export_file pDryFleet gAllFail "main" rfl

/-- C4 counterexample: restoring from a file whose only data line names
member "B" while no working copy exists on disk.  The id "B" is found in the
imported file, so the claim predicts missing = Roster − {B} = {A}; the code
computes missing from the successfully checked-out set (empty here) and
reports {A, B}. -/
theorem restore_drift_ignores_unchecked_file_ids :
    ProjectRepos.checkout_commits ⟨["A", "B"], "proj", false, []⟩
        gAllOk (fun _ => false) ["id,commit", "B,c1"] =
      Except.ok
        { checked := []
          outcomes := [Outcome.skippedMissing "B"]
          missing_students := ["A", "B"]
          extra_students := []
          effects := [] } ∧
    (importRecords ["id,commit", "B,c1"]).map (List.map Prod.fst) =
      some ["B"] ∧
    (["A", "B"] : List String).filter
      (fun s => ! (["B"] : List String).contains s) = ["A"] ∧
    (["A", "B"] : List String) ≠ ["A"] :=
  ⟨rfl, rfl, rfl, by decide⟩

/-- C4 amended: after a restore pass the reported drift is
missing = Roster − checked and extra = checked − Roster, where checked is the
set of members successfully checked out (an id found in the file but whose
working copy is absent or whose checkout fails is not in checked); when every
imported id has a working copy and checks out successfully, checked equals
the ids found in the file and the claim's example holds. -/
theorem restore_drift_measured_against_checked
    (p : ProjectRepos) (g : Git) (pathExists : String → Bool)
    (fileLines : List String)
    (hparse : ∀ l ∈ fileLines.tail, (parseSnapshotLine l).isSome = true) :
    ∃ res, p.checkout_commits g pathExists fileLines = Except.ok res ∧
      (∀ s, s ∈ res.missing_students ↔
        s ∈ p.su_numbers ∧ ¬ s ∈ res.checked) ∧
      (∀ s, s ∈ res.extra_students ↔
        s ∈ res.checked ∧ ¬ s ∈ p.su_numbers) ∧
      (∀ s, s ∈ res.checked ↔ ∃ l ∈ fileLines.tail, ∃ c,
        parseSnapshotLine l = some (s, c) ∧ pathExists s = true ∧
        ∃ u, g.restore s c = Except.ok u) := by
  rcases checkoutLoop_ok_of_parses g pathExists fileLines.tail hparse with
    ⟨r, hr, _, hmem⟩
  have hcc : p.checkout_commits g pathExists fileLines =
      Except.ok
        { checked := r.1
          outcomes := r.2.1
          missing_students := p.su_numbers.filter (fun s => ! r.1.contains s)
          extra_students := r.1.filter (fun s => ! p.su_numbers.contains s)
          effects := r.2.2 } := by
    simp only [ProjectRepos.checkout_commits, hr]
  refine ⟨_, hcc, ?_, ?_, hmem⟩
  · intro s
    simp [List.mem_filter, List.elem_iff]
  · intro s
    simp [List.mem_filter, List.elem_iff]

/-- Witness for the amended C4 at the claim's drift example: roster
{A, B, C}, imported snapshot ids {B, C, D}, every checkout succeeding. -/
theorem restore_drift_measured_against_checked_witness :
    ∃ res, ProjectRepos.checkout_commits ⟨["A", "B", "C"], "proj", false, []⟩
        gAllOk (fun _ => true)
        ["id,commit", "B,cB", "C,cC", "D,cD"] = Except.ok res ∧
      (∀ s, s ∈ res.missing_students ↔
        s ∈ (["A", "B", "C"] : List String) ∧ ¬ s ∈ res.checked) ∧
      (∀ s, s ∈ res.extra_students ↔
        s ∈ res.checked ∧ ¬ s ∈ (["A", "B", "C"] : List String)) ∧
      (∀ s, s ∈ res.checked ↔
        ∃ l ∈ (["id,commit", "B,cB", "C,cC", "D,cD"] : List String).tail,
        ∃ c, parseSnapshotLine l = some (s, c) ∧ (fun _ => true) s = true ∧
        ∃ u, gAllOk.restore s c = Except.ok u) :=
  restore_drift_measured_against_checked ⟨["A", "B", "C"], "proj", false, []⟩
    gAllOk (fun _ => true) ["id,commit", "B,cB", "C,cC", "D,cD"] (by decide)

/-- C6 counterexample: a roster of one member whose clone attempt fails.
After the first clone pass the collection is unchanged, so the second run's
working set (the missing set) is `["001"]`, not empty — refuting the claim
that the missing set is empty on the second run whenever external state is
unchanged. -/
theorem clone_retry_missing_set_not_empty :
    ((ProjectRepos.clone ⟨["001"], "proj", false, []⟩ gAllFail).1).missingSet
      = ["001"] ∧
    (["001"] : List String) ≠ ([] : List String) := by
  decide

/-- C6 amended: each successfully cloned repository is added to the live
collection during the clone pass; a second clone run with the same external
capability adds no repository and produces no success outcome; and when every
attempt of the first run succeeded, the second run's missing set is empty. -/
theorem clone_successes_join_collection_second_run_clones_none
    (p : ProjectRepos) (g : Git) :
    (∀ su, Outcome.success su ∈ (p.clone g).2.1 →
      su ∈ (p.clone g).1.repoIds) ∧
    ((p.clone g).1.clone g).1.repos = (p.clone g).1.repos ∧
    (∀ su, ¬ Outcome.success su ∈ ((p.clone g).1.clone g).2.1) ∧
    (p.dry_run = false →
      (∀ su ∈ p.missingSet, ∃ sha, g.clone su = Except.ok sha) →
      (p.clone g).1.missingSet = []) := by
  obtain ⟨R, pn, dr, rs0⟩ := p
  cases dr with
  | true =>
    refine ⟨?_, ?_, ?_, ?_⟩
    · intro su hsu
      simp [ProjectRepos.clone, cloneLoop_dry] at hsu
    · simp [ProjectRepos.clone, cloneLoop_dry]
    · intro su hsu
      simp [ProjectRepos.clone, cloneLoop_dry] at hsu
    · intro hdr
      simp at hdr
  | false =>
    have hids := cloneLoop_mem_ids g pn
      (ProjectRepos.missingSet ⟨R, pn, false, rs0⟩) rs0
    have hfail : ∀ su ∈ (ProjectRepos.missingSet ⟨R, pn, false,
        (cloneLoop g false pn (ProjectRepos.missingSet ⟨R, pn, false, rs0⟩)
          rs0).1⟩),
        ∃ e, g.clone su = Except.error e := by
      intro su hsu
      rw [mem_missingSet] at hsu
      cases hc : g.clone su with
      | ok sha =>
        exfalso
        apply hsu.2
        show su ∈ (cloneLoop g false pn
          (ProjectRepos.missingSet ⟨R, pn, false, rs0⟩) rs0).1.map repo_2_su
        rw [hids su]
        by_cases h0 : su ∈ rs0.map repo_2_su
        · exact Or.inl h0
        · refine Or.inr ⟨?_, sha, hc⟩
          rw [mem_missingSet]
          exact ⟨hsu.1, h0⟩
      | error e => exact ⟨e, rfl⟩
    refine ⟨?_, ?_, ?_, ?_⟩
    · intro su hsu
      have h1 := cloneLoop_success_clone_ok g pn
        (ProjectRepos.missingSet ⟨R, pn, false, rs0⟩) rs0 su hsu
      show su ∈ (cloneLoop g false pn
        (ProjectRepos.missingSet ⟨R, pn, false, rs0⟩) rs0).1.map repo_2_su
      rw [hids su]
      exact Or.inr h1
    · exact cloneLoop_all_error g pn _ _ hfail
    · intro su hsu
      have h1 := cloneLoop_success_clone_ok g pn _ _ su hsu
      rcases hfail su h1.1 with ⟨e, he⟩
      rcases h1.2 with ⟨sha, hok⟩
      rw [he] at hok
      cases hok
    · intro _ hall
      show List.filter _ R = []
      rw [List.filter_eq_nil_iff]
      intro a ha
      simp only [Bool.not_eq_true, Bool.not_eq_false', List.elem_iff,
        decide_eq_true_eq]
      show a ∈ (cloneLoop g false pn
        (ProjectRepos.missingSet ⟨R, pn, false, rs0⟩) rs0).1.map repo_2_su
      rw [hids a]
      by_cases h0 : a ∈ rs0.map repo_2_su
      · exact Or.inl h0
      · have hmem : a ∈ ProjectRepos.missingSet ⟨R, pn, false, rs0⟩ := by
          rw [mem_missingSet]
          exact ⟨ha, h0⟩
        exact Or.inr ⟨hmem, hall a hmem⟩

/-- Witness for the amended C6: after cloning member "002" successfully into
the concrete fleet, the missing set of the updated instance is empty. -/
theorem clone_successes_join_collection_witness :
    pFleet.dry_run = false ∧
    (pFleet.clone gAllOk).1.missingSet = [] :=
  ⟨rfl, (clone_successes_join_collection_second_run_clones_none pFleet
    gAllOk).2.2.2 rfl (fun _ _ => ⟨"sha1", rfl⟩)⟩

/-- C7: export writes exactly one line per input record, in the form
`id,commit`, with no header line; the number of newline-terminated lines in
the produced content equals the record count, given that ids and commits
contain no newline character (roster ids are read as single lines and commits
are hex digests). -/
theorem export_writes_one_line_per_record
    (p : ProjectRepos) (out_file : String)
    (h : ∀ r ∈ p.repos, r.id.data.count '\n' = 0 ∧
      r.commit.data.count '\n' = 0) :
    (p.export_commits out_file).1 = exportContent p.repos ∧
    exportLines p.repos =
      p.repos.map (fun r => repo_2_su r ++ "," ++ r.commit) ∧
    (exportLines p.repos).length = p.repos.length ∧
    (exportContent p.repos).data.count '\n' = p.repos.length ∧
    (p.export_commits out_file).2 =
      Effect.fsOpenWrite out_file ::
        p.repos.map (fun r => Effect.fsWriteLine out_file (exportLine r)) := by
  refine ⟨rfl, rfl, ?_, exportContent_newline_count p.repos h, rfl⟩
  simp [exportLines]

/-- Witness for C7 on the concrete two-repository fleet. -/
theorem export_writes_one_line_per_record_witness :
    (pTwoRepos.export_commits "out.csv").1 = exportContent pTwoRepos.repos ∧
    exportLines pTwoRepos.repos =
      pTwoRepos.repos.map (fun r => repo_2_su r ++ "," ++ r.commit) ∧
    (exportLines pTwoRepos.repos).length = pTwoRepos.repos.length ∧
    (exportContent pTwoRepos.repos).data.count '\n' =
      pTwoRepos.repos.length ∧
    (pTwoRepos.export_commits "out.csv").2 =
      Effect.fsOpenWrite "out.csv" ::
        pTwoRepos.repos.map
          (fun r => Effect.fsWriteLine "out.csv" (exportLine r)) :=
  export_writes_one_line_per_record pTwoRepos "out.csv" (by decide)

/-- C8: outside dry-run, switch attempts the caller-supplied reference in
every present record, accumulates exactly the members whose checkout
succeeded (with their new head commit), unconditionally exports that subset
to switched_repos.csv at the end, and reports the summary triple
succeeded / total repositories / total roster members. -/
theorem switch_accumulates_exports_and_summarizes
    (p : ProjectRepos) (g : Git) (branch_like : String)
    (h : p.dry_run = false) :
    ((p.switch g branch_like).outcomes).map Outcome.memberId =
      p.repos.map repo_2_su ∧
    (∀ rec, rec ∈ (p.switch g branch_like).successes ↔
      ∃ repo ∈ p.repos, ∃ sha,
        g.checkout (repo_2_su repo) branch_like = Except.ok sha ∧
        rec = { repo with commit := sha }) ∧
    (p.switch g branch_like).exported =
      exportContent (p.switch g branch_like).successes ∧
    Effect.fsOpenWrite "switched_repos.csv" ∈
      (p.switch g branch_like).effects ∧
    (p.switch g branch_like).summary =
      ((p.switch g branch_like).successes.length, p.repos.length,
        p.su_numbers.length) := by
  refine ⟨?_, ?_, rfl, ?_, rfl⟩
  · simpa [ProjectRepos.switch] using
      switchLoop_outcome_ids g p.dry_run branch_like p.repos
  · intro rec
    rw [show (p.switch g branch_like).successes =
      (switchLoop g p.dry_run branch_like p.repos).1 from rfl, h]
    exact switchLoop_mem_successes g branch_like p.repos rec
  · simp [ProjectRepos.switch, ProjectRepos._export]

/-- Witness for C8 on the concrete two-repository fleet with a capability
failing on member "002" only. -/
theorem switch_accumulates_exports_and_summarizes_witness :
    ((pTwoRepos.switch gFailOn002 "main").outcomes).map Outcome.memberId =
      pTwoRepos.repos.map repo_2_su ∧
    (∀ rec, rec ∈ (pTwoRepos.switch gFailOn002 "main").successes ↔
      ∃ repo ∈ pTwoRepos.repos, ∃ sha,
        gFailOn002.checkout (repo_2_su repo) "main" = Except.ok sha ∧
        rec = { repo with commit := sha }) ∧
    (pTwoRepos.switch gFailOn002 "main").exported =
      exportContent (pTwoRepos.switch gFailOn002 "main").successes ∧
    Effect.fsOpenWrite "switched_repos.csv" ∈
      (pTwoRepos.switch gFailOn002 "main").effects ∧
    (pTwoRepos.switch gFailOn002 "main").summary =
      ((pTwoRepos.switch gFailOn002 "main").successes.length,
        pTwoRepos.repos.length, pTwoRepos.su_numbers.length) :=
  switch_accumulates_exports_and_summarizes pTwoRepos gFailOn002 "main" rfl
